import Mathlib

/-!
Verification development for the Rusty-System-Analyser storage engine
(`src/analyzer/storage.rs`), shallowly embedded in Lean.

Conventions of the embedding:
* Machine floating point sizes are replaced by exact byte counts (`Nat`).
  The source stores `size_mb = len as f64 / 2^20` and `size_gb = bytes as
  f64 / 2^30`; division and multiplication by a power of two is exact and
  strictly monotone on the file sizes that fit in an `f64` mantissa, so
  every comparison the source performs on the `f64` values coincides with
  the same comparison on raw byte counts.
* `io::Result` is embedded as `Except String`; `Option` stays `Option`.
* The `walkdir` crate's iterator is an input to the embedded functions: a
  walk is a list of `Option` entries (`none` models an `Err` item that
  `filter_map(Result::ok)` drops, including the error entry emitted for a
  root that cannot be opened).
* Timestamps travel as their `DATE_FORMAT` ("%Y-%m-%d %H:%M:%S") strings,
  the way the cache stores them.  `system_time_to_string` lives in the
  `utils` module, which is not among the repository files; per the spec it
  is the `DATE_FORMAT` formatter, so the formatted string itself is the
  model of a timestamp.  `chrono`'s parsed `NaiveDateTime` is embedded as
  a `Nat` key that orders valid timestamps chronologically.
-/

namespace RustyAnalyser

/-- `GB_TO_BYTES = 1_073_741_824.0` from `constants.rs`, as an exact `Nat`. -/
def GB_TO_BYTES : Nat := 1073741824

/-- `MB_TO_BYTES = 1_048_576.0` from `constants.rs`, as an exact `Nat`. -/
def MB_TO_BYTES : Nat := 1048576

/-- `FileInfo` from `types.rs`.  `size_bytes` carries the exact byte count
whose `f64`-megabyte rendering the source stores in `size_mb`. -/
structure FileInfo where
  full_path : String
  size_bytes : Nat
  last_modified : Option String
  last_accessed : Option String
deriving DecidableEq, Repr

/-- `FolderSize` from `types.rs`; `size_bytes` is the byte count behind the
source's `size_gb : f64`. -/
structure FolderSize where
  folder : String
  size_bytes : Nat
  file_count : Nat
deriving DecidableEq, Repr

/-- `FileTypeStats` from `types.rs` (`total_size : u64`, `count : usize`). -/
structure FileTypeStats where
  total_size : Nat
  count : Nat
deriving DecidableEq, Repr

/-- `DriveAnalysis` from `types.rs`, in exact bytes. -/
structure DriveAnalysis where
  total_size : Nat
  used_space : Nat
  free_space : Nat
deriving DecidableEq, Repr

/-- `size_gb > MIN_FOLDER_SIZE_GB` (`0.1`) on exact bytes:
`bytes / 2^30 > 1/10  ↔  10 * bytes > 2^30`.  No integer byte count lies
between the exact threshold `2^30/10` and its `f64` rounding, so this is
the comparison the source performs. -/
def folderAboveMin (bytes : Nat) : Bool := 10 * bytes > GB_TO_BYTES

/-- `size > MIN_FILE_TYPE_SIZE_GB` (`0.01`) on exact bytes. -/
def typeAboveMin (bytes : Nat) : Bool := 100 * bytes > GB_TO_BYTES

/-! ### Timestamps

`DATE_FORMAT = "%Y-%m-%d %H:%M:%S"`.  `parseDT` embeds
`NaiveDateTime::parse_from_str(s, DATE_FORMAT)`: it accepts exactly the
strings the formatter produces (4-digit year, zero padded fields, literal
separators) with `chrono`'s calendar validation, and returns a `Nat` key
that is strictly increasing in chronological order over the validated
ranges, so every `<`/`>` the source performs on parsed timestamps is the
same comparison on keys. -/

/-- Gregorian leap year, as `chrono` validates dates. -/
def isLeap (y : Nat) : Bool := y % 4 == 0 && (y % 100 != 0 || y % 400 == 0)

/-- Days in a month, as `chrono` validates dates. -/
def daysInMonth (y m : Nat) : Nat :=
  if m = 2 then (if isLeap y then 29 else 28)
  else if m = 4 ∨ m = 6 ∨ m = 9 ∨ m = 11 then 30
  else 31

/-- Numeric value of a digit character. -/
def dig (c : Char) : Nat := c.toNat - 48

/-- Order-preserving key of a validated timestamp: the mixed-radix value of
`(y, month, day, hour, minute, second)` with radices that bound each
validated field, hence strictly monotone in lexicographic (= chronological)
order. -/
def dtKey (y mo d h mi se : Nat) : Nat :=
  ((((y * 13 + mo) * 32 + d) * 24 + h) * 60 + mi) * 60 + se

/-- `NaiveDateTime::parse_from_str(s, "%Y-%m-%d %H:%M:%S")`:
`some` exactly on well-formed, calendar-valid strings. -/
def parseDT (s : String) : Option Nat :=
  match s.toList with
  | [y1, y2, y3, y4, '-', mo1, mo2, '-', d1, d2, ' ',
     h1, h2, ':', mi1, mi2, ':', se1, se2] =>
    if ([y1, y2, y3, y4, mo1, mo2, d1, d2, h1, h2, mi1, mi2, se1, se2].all
          Char.isDigit) then
      let y := 1000 * dig y1 + 100 * dig y2 + 10 * dig y3 + dig y4
      let mo := 10 * dig mo1 + dig mo2
      let d := 10 * dig d1 + dig d2
      let h := 10 * dig h1 + dig h2
      let mi := 10 * dig mi1 + dig mi2
      let se := 10 * dig se1 + dig se2
      if 1 ≤ mo ∧ mo ≤ 12 ∧ 1 ≤ d ∧ d ≤ daysInMonth y mo ∧
         h ≤ 23 ∧ mi ≤ 59 ∧ se ≤ 59 then
        some (dtKey y mo d h mi se)
      else none
    else none
  | _ => none

/-! ### Ranking

The source sorts with comparator `|a, b| b.size.partial_cmp(&a.size)`,
i.e. descending by size.  `get_recent_large_files` and
`get_old_large_files` use the stable `sort_by`, embedded as the stable
`List.insertionSort`; `get_largest_files` uses `par_sort_unstable_by`,
whose order among equal sizes is unspecified — the embedding fixes one
sorted order for it, and no theorem below relies on its tie order. -/

/-- The sort relation of the file views: descending by size. -/
def sizeDescF (a b : FileInfo) : Prop := b.size_bytes ≤ a.size_bytes

instance : DecidableRel sizeDescF := fun a b =>
  inferInstanceAs (Decidable (b.size_bytes ≤ a.size_bytes))

instance : IsTotal FileInfo sizeDescF :=
  ⟨fun a b => Nat.le_total b.size_bytes a.size_bytes⟩

instance : IsTrans FileInfo sizeDescF :=
  ⟨fun _ _ _ h1 h2 => Nat.le_trans h2 h1⟩

/-- The sort relation of the folder view: descending by size. -/
def sizeDescD (a b : FolderSize) : Prop := b.size_bytes ≤ a.size_bytes

instance : DecidableRel sizeDescD := fun a b =>
  inferInstanceAs (Decidable (b.size_bytes ≤ a.size_bytes))

instance : IsTotal FolderSize sizeDescD :=
  ⟨fun a b => Nat.le_total b.size_bytes a.size_bytes⟩

instance : IsTrans FolderSize sizeDescD :=
  ⟨fun _ _ _ h1 h2 => Nat.le_trans h2 h1⟩

/-- `get_largest_files` on a cached file list (`storage.rs` 228–238):
clone the cache and sort descending by size. -/
def get_largest_files_from (files : List FileInfo) : List FileInfo :=
  List.insertionSort sizeDescF files

/-- The `retain` predicate of `get_recent_large_files` (`storage.rs`
370–374): parse `last_modified` (with `"Unknown"` for an absent value) and
keep the file iff the parse succeeds and `dt > thirty_days_ago`. -/
def recentPred (thirtyDaysAgo : Nat) (f : FileInfo) : Bool :=
  match parseDT (f.last_modified.getD "Unknown") with
  | some dt => thirtyDaysAgo < dt
  | none => false

/-- The `retain` predicate of `get_old_large_files` (`storage.rs` 401–405):
keep iff the parse succeeds and `dt < six_months_ago`. -/
def oldPred (sixMonthsAgo : Nat) (f : FileInfo) : Bool :=
  match parseDT (f.last_modified.getD "Unknown") with
  | some dt => dt < sixMonthsAgo
  | none => false

/-- `get_recent_large_files` on a cached list (`storage.rs` 359–378),
with the cutoff `Utc::now() - Duration::days(30)` as a parameter. -/
def get_recent_large_files_from (thirtyDaysAgo : Nat)
    (files : List FileInfo) : List FileInfo :=
  List.insertionSort sizeDescF (files.filter (recentPred thirtyDaysAgo))

/-- `get_old_large_files` on a cached list (`storage.rs` 390–409),
with the cutoff `Utc::now() - Duration::days(180)` as a parameter. -/
def get_old_large_files_from (sixMonthsAgo : Nat)
    (files : List FileInfo) : List FileInfo :=
  List.insertionSort sizeDescF (files.filter (oldPred sixMonthsAgo))

/-! ### Extension distribution (`get_file_type_distribution`)

`storage.rs` 180–226: a parallel `fold` builds one partial
`HashMap<String, FileTypeStats>` per worker, and `reduce` merges partial
maps pairwise by summing `total_size` and `count` of matching keys.  A
map is embedded as a total function `String → FileTypeStats` that is zero
off its support — exactly the behaviour of `entry(ext).or_default()`. -/

/-- A path separator (`/` on all platforms, `\` on Windows paths). -/
def isSepChar (c : Char) : Bool := c = '/' || c = '\\'

/-- Split a character list on a separator predicate; like Rust's `split`,
the result always has at least one (possibly empty) piece. -/
def splitChars (sep : Char → Bool) : List Char → List (List Char)
  | [] => [[]]
  | c :: cs =>
    match splitChars sep cs with
    | [] => [[]]
    | h :: t => if sep c then [] :: h :: t else (c :: h) :: t

/-- The last path component (`Path::file_name`-like): the text after the
last separator, which is what `Path::extension()` inspects. -/
def lastComponent (p : String) : List Char :=
  (splitChars isSepChar p.toList).getLastD []

/-- `Path::extension()` on a file name, composed with the source's
`to_lowercase` / `"(No Extension)"` handling (`storage.rs` 190–193): the
text after the last `.`, except that a name with no `.`, or whose only
`.` is a leading one, has no extension. -/
def extKeyChars (name : List Char) : String :=
  match splitChars (fun c => c = '.') name with
  | [] => "(No Extension)"
  | [_] => "(No Extension)"
  | parts =>
    if parts.dropLast = [[]] then "(No Extension)"
    else ⟨(parts.getLastD []).map Char.toLower⟩

/-- The grouping key of `get_file_type_distribution`. -/
def extensionKey (p : String) : String := extKeyChars (lastComponent p)

/-- The all-zero partial map (`HashMap::new()` under `or_default`). -/
def extStatsEmpty : String → FileTypeStats := fun _ => ⟨0, 0⟩

/-- One step of the parallel `fold` (`storage.rs` 189–201): bump the
file's key by its size (in bytes — `(size_mb * MB_TO_BYTES) as u64`
round-trips the exact byte count) and by one. -/
def addFileToStats (acc : String → FileTypeStats) (f : FileInfo) :
    String → FileTypeStats := fun e =>
  if e = extensionKey f.full_path then
    ⟨(acc e).total_size + f.size_bytes, (acc e).count + 1⟩
  else acc e

/-- A worker's partial map: the fold over its slice of the file list. -/
def foldStats (files : List FileInfo) : String → FileTypeStats :=
  files.foldl addFileToStats extStatsEmpty

/-- The `reduce` merge (`storage.rs` 203–213): sum matching keys. -/
def mergeStats (m1 m2 : String → FileTypeStats) : String → FileTypeStats :=
  fun e => ⟨(m1 e).total_size + (m2 e).total_size,
            (m1 e).count + (m2 e).count⟩

/-! ### The walker stream and `collect_and_cache_files`

`collect_and_cache_files` (`storage.rs` 118–179) consumes two `WalkDir`
iterators.  An iterator is embedded as the list of its items; `none` is an
`Err` item (dropped by `filter_map(Result::ok)`).  A nonexistent or
unopenable root makes `walkdir` yield exactly one `Err` item, so that walk
is the one-element list `[none]`. -/

/-- A successful `walkdir` entry, with the fields the source reads.
`metadata = none` models a failing `entry.metadata()` call; the timestamp
fields are already the `Option String` the source derives via
`.ok().map(system_time_to_string)`. -/
structure WalkEntry where
  path : String
  is_file : Bool
  metadata : Option (Nat × Option String × Option String)
deriving DecidableEq, Repr

/-- The file-collection pipeline of `collect_and_cache_files`
(`storage.rs` 133–150): drop `Err` items, keep files, drop entries whose
metadata read fails, build `FileInfo`. -/
def collect_files (walk : List (Option WalkEntry)) : List FileInfo :=
  ((walk.filterMap id).filter (fun e => e.is_file)).filterMap (fun e =>
    e.metadata.map (fun m => ⟨e.path, m.1, m.2.1, m.2.2⟩))

/-- The engine state: the two per-drive caches of `StorageAnalyzer`
(`storage.rs` 27–31).  A `HashMap` is embedded as an association list
where the most recent insertion shadows older entries. -/
structure StorageAnalyzer where
  file_cache : List (String × List FileInfo)
  folder_cache : List (String × List FolderSize)
deriving DecidableEq, Repr

/-- `HashMap::get` / `contains_key` on the embedded map. -/
def lookupCache {α : Type} (c : List (String × α)) (k : String) : Option α :=
  (c.find? (fun e => e.1 = k)).map (fun e => e.2)

/-- `StorageAnalyzer::new()` with the caches empty. -/
def emptyAnalyzer : StorageAnalyzer := ⟨[], []⟩

/-- `collect_and_cache_files` (`storage.rs` 118–179).  Inputs: the file
walk and the already aggregated folder scan for this call's filesystem
snapshot, the current state, and the drive key.  Output: the `io::Result`
(always `.ok ()` — no branch of the source builds an `Err`), the new
state, and whether this call scanned the filesystem. -/
def collect_and_cache_files (walk : List (Option WalkEntry))
    (folderScanResult : List FolderSize) (s : StorageAnalyzer)
    (drive : String) : Except String Unit × StorageAnalyzer × Bool :=
  if (lookupCache s.file_cache drive).isSome then (.ok (), s, false)
  else if (lookupCache s.folder_cache drive).isSome then (.ok (), s, false)
  else (.ok (),
    ⟨(drive, collect_files walk) :: s.file_cache,
     (drive, folderScanResult) :: s.folder_cache⟩, true)

/-- A query's filesystem touch: every engine query starts with
`collect_and_cache_files`, and afterwards only reads the caches; a call
record carries the walker data the filesystem would have produced at that
instant. -/
structure ScanCall where
  walk : List (Option WalkEntry)
  folders : List FolderSize
  drive : String

/-- How many of the given calls actually scan the filesystem for drive
`d`, starting from state `s`. -/
def scanCount (d : String) (s : StorageAnalyzer) : List ScanCall → Nat
  | [] => 0
  | c :: cs =>
    (if (collect_and_cache_files c.walk c.folders s c.drive).2.2 &&
        c.drive == d then 1 else 0) +
    scanCount d (collect_and_cache_files c.walk c.folders s c.drive).2.1 cs

/-- State-level `get_largest_files` (`storage.rs` 228–238): collect (or
hit the cache), then read `file_cache` and sort. -/
def get_largest_files (walk : List (Option WalkEntry))
    (folderScanResult : List FolderSize) (s : StorageAnalyzer)
    (drive : String) : List FileInfo × StorageAnalyzer :=
  let r := collect_and_cache_files walk folderScanResult s drive
  match lookupCache r.2.1.file_cache drive with
  | some files => (get_largest_files_from files, r.2.1)
  | none => ([], r.2.1)

/-- State-level `get_recent_large_files` (`storage.rs` 359–378). -/
def get_recent_large_files (thirtyDaysAgo : Nat)
    (walk : List (Option WalkEntry)) (folderScanResult : List FolderSize)
    (s : StorageAnalyzer) (drive : String) :
    List FileInfo × StorageAnalyzer :=
  let r := collect_and_cache_files walk folderScanResult s drive
  match lookupCache r.2.1.file_cache drive with
  | some files => (get_recent_large_files_from thirtyDaysAgo files, r.2.1)
  | none => ([], r.2.1)

/-- State-level `get_old_large_files` (`storage.rs` 390–409). -/
def get_old_large_files (sixMonthsAgo : Nat)
    (walk : List (Option WalkEntry)) (folderScanResult : List FolderSize)
    (s : StorageAnalyzer) (drive : String) :
    List FileInfo × StorageAnalyzer :=
  let r := collect_and_cache_files walk folderScanResult s drive
  match lookupCache r.2.1.file_cache drive with
  | some files => (get_old_large_files_from sixMonthsAgo files, r.2.1)
  | none => ([], r.2.1)

/-- State-level `get_file_type_distribution` (`storage.rs` 180–226),
up to the per-extension totals: collect (or hit the cache), then build
the merged extension map from the cached list.  (The source then turns
the map into a vector, filters small groups and sorts it; the claims
about this query concern the totals, which the map carries.) -/
def get_file_type_distribution (walk : List (Option WalkEntry))
    (folderScanResult : List FolderSize) (s : StorageAnalyzer)
    (drive : String) : (String → FileTypeStats) × StorageAnalyzer :=
  let r := collect_and_cache_files walk folderScanResult s drive
  match lookupCache r.2.1.file_cache drive with
  | some files => (files.foldl addFileToStats extStatsEmpty, r.2.1)
  | none => (extStatsEmpty, r.2.1)

/-- State-level `print_largest_folders` (`storage.rs` 274–290): if the
folder cache holds the drive, print its first ten entries as they sit in
the cache; otherwise collect and print from the freshly filled cache (the
source does this by one recursive call).  Returns the entries printed. -/
def print_largest_folders (walk : List (Option WalkEntry))
    (folderScanResult : List FolderSize) (s : StorageAnalyzer)
    (drive : String) : List FolderSize × StorageAnalyzer :=
  match lookupCache s.folder_cache drive with
  | some folders => (folders.take 10, s)
  | none =>
    let r := collect_and_cache_files walk folderScanResult s drive
    (((lookupCache r.2.1.folder_cache drive).getD []).take 10, r.2.1)

/-! ### The report composer (`analyze_drive`) -/

/-- The six sections of a full report, in the order `analyze_drive`
(`storage.rs` 241–254) attempts them. -/
inductive ReportSection where
  | spaceOverview
  | largestFolders
  | fileTypeDist
  | largestFiles
  | recentLargeFiles
  | oldLargeFiles
deriving DecidableEq, Repr

/-- `print_drive_space_overview` (`storage.rs` 256–270): on a space-query
failure it logs and returns the error (`Err(e)`), printing no overview. -/
def print_drive_space_overview (space : Except String DriveAnalysis) :
    Except String Unit :=
  match space with
  | .ok _ => .ok ()
  | .error e => .error e

/-- The `?`-chain of `analyze_drive`: run the stages in order, recording
each section produced, and stop at the first stage that returns `Err`. -/
def runStages : List (ReportSection × Except String Unit) →
    List ReportSection × Option String
  | [] => ([], none)
  | (sec, .ok _) :: rest =>
    let r := runStages rest
    (sec :: r.1, r.2)
  | (_, .error e) :: _ => ([], some e)

/-- `analyze_drive` (`storage.rs` 241–254), parameterised by the outcome
of the drive-space query (an OS call).  The five scan-backed stages
return `Ok`: no branch of their shared `collect_and_cache_files` builds
an `Err`, and neither do the cache reads after it. -/
def analyze_drive (space : Except String DriveAnalysis) :
    List ReportSection × Option String :=
  runStages
    [(.spaceOverview, print_drive_space_overview space),
     (.largestFolders, .ok ()), (.fileTypeDist, .ok ()),
     (.largestFiles, .ok ()), (.recentLargeFiles, .ok ()),
     (.oldLargeFiles, .ok ())]

/-! ### The directory tree and the `WalkDir` traversals

The recursive walks of `storage.rs` traverse a real directory tree; the
tree is embedded as a rose tree and a traversal as a structural recursion
over it.  Paths are component lists (root `"C:/"` is the one-component
path `["C:"]`); `renderPath` produces the display string.  The error-free
tree models a readable volume — per-entry traversal errors are modelled
at the stream level by `collect_files`, the consumer of the walk. -/

mutual
/-- A node of the volume's directory tree: a file with its byte size and
formatted timestamps, or a directory with its children. -/
inductive FsNode where
  | file (name : String) (size : Nat) (modified : Option String)
      (accessed : Option String)
  | dir (name : String) (children : FsForest)
deriving DecidableEq, Repr
/-- A sibling list of tree nodes. -/
inductive FsForest where
  | nil
  | cons (hd : FsNode) (tl : FsForest)
deriving DecidableEq, Repr
end

/-- The base name of a node (`entry.file_name()`). -/
def FsNode.name : FsNode → String
  | .file n _ _ _ => n
  | .dir n _ => n

/-- A file met by a walk: its absolute path (components), size, and
timestamps. -/
structure FileRec where
  path : List String
  size : Nat
  modified : Option String
  accessed : Option String
deriving DecidableEq, Repr

/-- `entry.path().to_string_lossy()`: components joined by `/`. -/
def renderPath (p : List String) : String := String.intercalate "/" p

mutual
/-- `WalkDir::new(p)` filtered to files, for the node whose absolute path
is `p`: every file at unbounded depth, hidden names included. -/
def walkFrom (p : List String) : FsNode → List FileRec
  | .file _ s m a => [⟨p, s, m, a⟩]
  | .dir _ cs => walkForest p cs
/-- The files beneath each node of a sibling list whose parent directory
has absolute path `p`. -/
def walkForest (p : List String) : FsForest → List FileRec
  | .nil => []
  | .cons c cs => walkFrom (p ++ [c.name]) c ++ walkForest p cs
end

mutual
/-- `WalkDir::new(root).min_depth(1).max_depth(3)` filtered to
directories: the directory entries of the node at path `p` and depth `d`
(root = depth 0), each with its absolute path. -/
def dirsFrom (p : List String) (d : Nat) : FsNode → List (List String × FsNode)
  | .file _ _ _ _ => []
  | .dir nm cs =>
    (if 1 ≤ d ∧ d ≤ 3 then [(p, .dir nm cs)] else []) ++
    (if d < 3 then dirsForest p d cs else [])
/-- Directory entries contributed by the children (at depth `d + 1`) of a
node at path `p`, depth `d`. -/
def dirsForest (p : List String) (d : Nat) : FsForest → List (List String × FsNode)
  | .nil => []
  | .cons c cs => dirsFrom (p ++ [c.name]) (d + 1) c ++ dirsForest p d cs
end

/-- Find a child by name in a sibling list (path navigation). -/
def findChild (nm : String) : FsForest → Option FsNode
  | .nil => none
  | .cons c cs => if c.name = nm then some c else findChild nm cs

/-- The subtree of `t` reached by following the component path `q`. -/
def subtreeAt (t : FsNode) : List String → Option FsNode
  | [] => some t
  | nm :: rest =>
    match t with
    | .file _ _ _ _ => none
    | .dir _ cs => (findChild nm cs).bind (fun c => subtreeAt c rest)

mutual
/-- Well-formedness of a real directory tree: sibling names are distinct. -/
def nodeWF : FsNode → Bool
  | .file _ _ _ _ => true
  | .dir _ cs => forestWF cs
/-- Sibling-list well-formedness: head's name absent from the tail, and
every member well-formed. -/
def forestWF : FsForest → Bool
  | .nil => true
  | .cons c cs => nodeWF c && forestWF cs && (findChild c.name cs).isNone
end

/-- `calculate_folder_size` (`storage.rs` 329–347) for the directory at
absolute path `p` with subtree `n`: walk the subtree, sum the byte sizes,
count the files. -/
def calculate_folder_size (p : List String) (n : FsNode) : FolderSize :=
  ⟨renderPath p, ((walkFrom p n).map (fun e => e.size)).sum,
   (walkFrom p n).length⟩

/-- The folder side of `collect_and_cache_files` (`storage.rs` 157–165):
every depth-1..3 directory — no hidden-name filter, no size filter, no
sort — mapped through `calculate_folder_size`, in traversal order.  This
list is what lands in `folder_cache`. -/
def folderScanOf (root : FsNode) : List FolderSize :=
  (dirsFrom [root.name] 0 root).map (fun e => calculate_folder_size e.1 e.2)

/-- `!file_name.starts_with('.')` failing, i.e. a hidden base name
(`storage.rs` 312–317). -/
def hiddenName (s : String) : Bool :=
  match s.toList with
  | '.' :: _ => true
  | _ => false

/-- `get_largest_folders` (`storage.rs` 304–327; defined in the source but
never called): depth-1..3 directories, hidden base names dropped, sizes
computed, directories at most `0.1` GB dropped (strict `>` keeps the
rest), sorted descending by size. -/
def get_largest_folders (root : FsNode) : List FolderSize :=
  List.insertionSort sizeDescD
    ((((dirsFrom [root.name] 0 root).filter
        (fun e => !hiddenName e.2.name)).map
        (fun e => calculate_folder_size e.1 e.2)).filter
        (fun f => folderAboveMin f.size_bytes))

/-- The file side of a full scan of the tree: `WalkDir::new(root)` with
the root entry (a directory) excluded by the `is_file` filter. -/
def fileScanOf (root : FsNode) : List FileRec :=
  walkFrom [root.name] root

/-! ### Concrete data for witnesses and counterexamples -/

/-- A 5 MB file at path `C:/a`, modified 2025-09-20. -/
def exA : FileInfo := ⟨"C:/a", 5242880, some "2025-09-20 10:00:00", none⟩

/-- A 5 MB file at path `C:/b`, modified 2025-09-21 (same size as `exA`,
lexicographically later path). -/
def exB : FileInfo := ⟨"C:/b", 5242880, some "2025-09-21 10:00:00", none⟩

/-- A file with no recorded modification timestamp. -/
def exU : FileInfo := ⟨"C:/u", 9437184, none, none⟩

/-- A file whose recorded timestamp does not parse under `DATE_FORMAT`. -/
def exV : FileInfo := ⟨"C:/v", 1048576, some "20 Sep 2025", none⟩

/-- A file timestamped between the old and the recent cutoff below. -/
def exMid : FileInfo := ⟨"C:/m", 2097152, some "2025-06-01 00:00:00", none⟩

/-- A recent-window cutoff: 2025-09-12 00:00:00 as a timestamp key. -/
def exCut30 : Nat := dtKey 2025 9 12 0 0 0

/-- An old-window cutoff, five months before `exCut30`. -/
def exCut180 : Nat := dtKey 2025 4 15 0 0 0

/-- A volume holding a 50 MB directory before a 2 GB directory. -/
def exT1 : FsNode :=
  .dir "C:" (.cons (.dir "small" (.cons (.file "f" 52428800 none none) .nil))
    (.cons (.dir "big" (.cons (.file "g" 2147483648 none none) .nil)) .nil))

/-- A volume whose only directory is hidden (`.hidden`) and large. -/
def exT2 : FsNode :=
  .dir "C:" (.cons (.dir ".hidden"
    (.cons (.file "g" 2147483648 none none) .nil)) .nil)

/-- A volume with a visible directory `d` holding a file and a hidden
subdirectory with another file. -/
def exT3 : FsNode :=
  .dir "C:" (.cons (.dir "d" (.cons (.file "a.txt" 5 none none)
    (.cons (.dir ".h" (.cons (.file "b" 7 none none) .nil)) .nil))) .nil)

/-- The subtree of `exT3` at path `["d"]`. -/
def exT3d : FsNode :=
  .dir "d" (.cons (.file "a.txt" 5 none none)
    (.cons (.dir ".h" (.cons (.file "b" 7 none none) .nil)) .nil))

/-- An engine state whose file cache already holds `[exA]` for `C:/`. -/
def exCached : StorageAnalyzer := ⟨[("C:/", [exA])], [("C:/", [])]⟩

/-! ## Theorems -/

/-! ### C2 — `analyze_drive` aborts on a space-query failure -/

/-- C2 counterexample: with the drive-space query failing, `analyze_drive`
produces no report section at all — in particular not the largest-folders
section — and surfaces the error; the claim that the remaining sections
are still produced is false. -/
theorem analyze_drive_error_drops_all_sections :
    analyze_drive (.error "access denied") = ([], some "access denied") ∧
    ReportSection.largestFolders ∉ (analyze_drive (.error "access denied")).1 := by
  constructor
  · rfl
  · decide

/-- C2 (amended): a failure of the drive-space stage is surfaced as the
report's error and aborts `analyze_drive` at once — none of the remaining
five sections is produced (the `?` chain makes the report all-or-nothing
at its first failing stage); when the space query succeeds, all six
sections are produced in order. -/
theorem analyze_drive_all_or_nothing :
    (∀ e : String, analyze_drive (.error e) = ([], some e)) ∧
    (∀ d : DriveAnalysis, analyze_drive (.ok d) =
      ([.spaceOverview, .largestFolders, .fileTypeDist, .largestFiles,
        .recentLargeFiles, .oldLargeFiles], none)) := by
  exact ⟨fun e => rfl, fun d => rfl⟩

/-! ### C4 — a bad root is absorbed, not surfaced -/

/-- C4 counterexample: for a root that cannot be opened (`walkdir` yields
the single `Err` item `[none]`), `collect_and_cache_files` on a fresh
engine returns success and caches an empty file list for the drive — it
does not return an explicit error. -/
theorem collect_bad_root_succeeds_empty :
    collect_and_cache_files [none] [] emptyAnalyzer "Q:/" =
      (.ok (), ⟨[("Q:/", [])], [("Q:/", [])]⟩, true) ∧
    lookupCache (collect_and_cache_files [none] [] emptyAnalyzer
      "Q:/").2.1.file_cache "Q:/" = some [] := by
  constructor
  · rfl
  · rfl

/-- C4 (amended): `collect_and_cache_files` absorbs every traversal
failure, the failure to open the root included: it returns `Ok` for every
walker stream (so every query built on it reports success for a
nonexistent root), and an uncached drive gets exactly the `Ok` file
entries of the stream cached — an all-`Err` stream caches the empty
list. -/
theorem collect_and_cache_files_never_errors :
    ∀ (walk : List (Option WalkEntry)) (fsc : List FolderSize)
      (s : StorageAnalyzer) (drive : String),
      (collect_and_cache_files walk fsc s drive).1 = .ok () ∧
      (lookupCache s.file_cache drive = none →
       lookupCache s.folder_cache drive = none →
       lookupCache (collect_and_cache_files walk fsc s
         drive).2.1.file_cache drive = some (collect_files walk)) := by
  intro walk fsc s drive
  constructor
  · unfold collect_and_cache_files
    split
    · rfl
    · split <;> rfl
  · intro h1 h2
    unfold collect_and_cache_files
    rw [h1, h2]
    simp [lookupCache]

/-- Witness for `collect_and_cache_files_never_errors` at the all-`Err`
stream on a fresh engine. -/
theorem collect_never_errors_witness :
    (collect_and_cache_files [none] [] emptyAnalyzer "C:/").1 = .ok () ∧
    lookupCache (collect_and_cache_files [none] [] emptyAnalyzer
      "C:/").2.1.file_cache "C:/" = some (collect_files [none]) :=
  ⟨(collect_and_cache_files_never_errors [none] [] emptyAnalyzer "C:/").1,
   (collect_and_cache_files_never_errors [none] [] emptyAnalyzer "C:/").2
     (by rfl) (by rfl)⟩

/-! ### C3 — one scan per volume, stale-by-design cache -/

/-- Looking a key up after an insertion: the inserted pair shadows. -/
theorem lookupCache_cons {α : Type} (k : String) (v : α)
    (c : List (String × α)) (d : String) :
    lookupCache ((k, v) :: c) d = if k = d then some v else lookupCache c d := by
  by_cases h : k = d <;> simp [lookupCache, List.find?_cons, h]

/-- A drive already in the file cache makes `collect_and_cache_files` a
pure no-op: success, unchanged state, no scan. -/
theorem collect_cached_noop (walk : List (Option WalkEntry))
    (fsc : List FolderSize) (s : StorageAnalyzer) (d : String)
    (v : List FileInfo) (h : lookupCache s.file_cache d = some v) :
    collect_and_cache_files walk fsc s d = (.ok (), s, false) := by
  unfold collect_and_cache_files
  rw [h]
  rfl

/-- `collect_and_cache_files` never removes or replaces a cached file
list: a drive cached before a call is cached with the same list after
it, whatever the call's target drive or walker data. -/
theorem collect_preserves_cached (walk : List (Option WalkEntry))
    (fsc : List FolderSize) (s : StorageAnalyzer) (drive d : String)
    (v : List FileInfo) (h : lookupCache s.file_cache d = some v) :
    lookupCache (collect_and_cache_files walk fsc s
      drive).2.1.file_cache d = some v := by
  unfold collect_and_cache_files
  by_cases h1 : (lookupCache s.file_cache drive).isSome
  · simp [h1, h]
  · by_cases h2 : (lookupCache s.folder_cache drive).isSome
    · simp [h1, h2, h]
    · simp only [h1, h2, if_false, Bool.false_eq_true]
      rw [lookupCache_cons]
      split
      · rename_i he
        rw [he] at h1
        rw [h] at h1
        simp at h1
      · exact h

/-- A call whose `collect_and_cache_files` reports a scan leaves the
scanned drive file-cached with the stream's `Ok` file entries. -/
theorem collect_scan_caches (walk : List (Option WalkEntry))
    (fsc : List FolderSize) (s : StorageAnalyzer) (drive : String)
    (hdid : (collect_and_cache_files walk fsc s drive).2.2 = true) :
    lookupCache (collect_and_cache_files walk fsc s
      drive).2.1.file_cache drive = some (collect_files walk) := by
  unfold collect_and_cache_files at hdid ⊢
  by_cases h1 : (lookupCache s.file_cache drive).isSome
  · simp [h1] at hdid
  · by_cases h2 : (lookupCache s.folder_cache drive).isSome
    · simp [h1, h2] at hdid
    · simp only [h1, h2, if_false, Bool.false_eq_true]
      rw [lookupCache_cons]
      simp

/-- From a state where drive `d` is already file-cached, no sequence of
further queries ever scans for `d` again. -/
theorem scanCount_zero_of_cached (d : String) (s : StorageAnalyzer)
    (calls : List ScanCall) (v : List FileInfo)
    (h : lookupCache s.file_cache d = some v) :
    scanCount d s calls = 0 := by
  induction calls generalizing s with
  | nil => rfl
  | cons c cs ih =>
    unfold scanCount
    by_cases hcd : c.drive = d
    · subst hcd
      rw [collect_cached_noop c.walk c.folders s c.drive v h]
      simpa using ih s h
    · have hpres := collect_preserves_cached c.walk c.folders s c.drive d v h
      have hne : (c.drive == d) = false := by simp [hcd]
      rw [hne]
      simpa using ih _ hpres

/-- C3: (i) from any state, any sequence of engine queries triggers at
most one filesystem scan for a given volume id; (ii) once the file cache
holds list `v` for a drive, every later query for that drive is a pure
function of `v` — `collect_and_cache_files` is a no-op and the four
cache-backed queries return results computed from `v`, identical across
calls no matter how the filesystem (the walker stream and folder scan
arguments) has changed in between. -/
theorem scan_at_most_once_and_results_stable :
    (∀ (d : String) (s : StorageAnalyzer) (calls : List ScanCall),
       scanCount d s calls ≤ 1) ∧
    (∀ (s : StorageAnalyzer) (d : String) (v : List FileInfo),
       lookupCache s.file_cache d = some v →
       ∀ (walk : List (Option WalkEntry)) (fsc : List FolderSize)
         (c30 c180 : Nat),
         collect_and_cache_files walk fsc s d = (.ok (), s, false) ∧
         get_largest_files walk fsc s d = (get_largest_files_from v, s) ∧
         get_recent_large_files c30 walk fsc s d =
           (get_recent_large_files_from c30 v, s) ∧
         get_old_large_files c180 walk fsc s d =
           (get_old_large_files_from c180 v, s) ∧
         get_file_type_distribution walk fsc s d = (foldStats v, s)) := by
  constructor
  · intro d s calls
    induction calls generalizing s with
    | nil => exact Nat.zero_le 1
    | cons c cs ih =>
      unfold scanCount
      by_cases hscan : ((collect_and_cache_files c.walk c.folders s
          c.drive).2.2 && c.drive == d) = true
      · have hd : c.drive = d := by
          have := hscan
          simp only [Bool.and_eq_true, beq_iff_eq] at this
          exact this.2
        have hdid : (collect_and_cache_files c.walk c.folders s
            c.drive).2.2 = true := by
          simp only [Bool.and_eq_true] at hscan
          exact hscan.1
        subst hd
        have hcached := collect_scan_caches c.walk c.folders s c.drive hdid
        rw [if_pos hscan, scanCount_zero_of_cached c.drive _ cs
          (collect_files c.walk) hcached]
      · rw [if_neg hscan]
        simpa using ih (collect_and_cache_files c.walk c.folders s c.drive).2.1
  · intro s d v h walk fsc c30 c180
    have hno := collect_cached_noop walk fsc s d v h
    refine ⟨hno, ?_, ?_, ?_, ?_⟩
    · unfold get_largest_files
      rw [hno]
      simp [h]
    · unfold get_recent_large_files
      rw [hno]
      simp [h]
    · unfold get_old_large_files
      rw [hno]
      simp [h]
    · unfold get_file_type_distribution
      rw [hno]
      simp [h, foldStats]

/-- Witness for `scan_at_most_once_and_results_stable` on a state whose
cache holds `[exA]` for `C:/`, queried with two different walker
streams. -/
theorem scan_at_most_once_witness :
    scanCount "C:/" exCached [] ≤ 1 ∧
    get_largest_files [none] [] exCached "C:/" =
      (get_largest_files_from [exA], exCached) := by
  have h2 := (scan_at_most_once_and_results_stable.2 exCached "C:/" [exA]
    (by rfl) [none] [] 0 0).2.1
  exact ⟨scan_at_most_once_and_results_stable.1 "C:/" exCached [], h2⟩

/-! ### C9 — missing/unparseable timestamps -/

/-- C9: a cached file whose `last_modified` is absent, or whose recorded
string does not parse under `DATE_FORMAT`, is excluded from both
date-windowed views for every choice of cutoffs, yet still appears in the
unfiltered largest-files view. -/
theorem unparseable_timestamp_excluded_from_windows :
    ∀ (files : List FileInfo) (f : FileInfo) (c30 c180 : Nat),
      f ∈ files →
      (f.last_modified = none ∨
        parseDT (f.last_modified.getD "Unknown") = none) →
      f ∉ get_recent_large_files_from c30 files ∧
      f ∉ get_old_large_files_from c180 files ∧
      f ∈ get_largest_files_from files := by
  intro files f c30 c180 hmem hbad
  have hparse : parseDT (f.last_modified.getD "Unknown") = none := by
    rcases hbad with h | h
    · rw [h]
      rfl
    · exact h
  refine ⟨?_, ?_, ?_⟩
  · intro hin
    rw [get_recent_large_files_from,
      (List.perm_insertionSort _ _).mem_iff] at hin
    have hp := List.of_mem_filter hin
    unfold recentPred at hp
    rw [hparse] at hp
    simp at hp
  · intro hin
    rw [get_old_large_files_from,
      (List.perm_insertionSort _ _).mem_iff] at hin
    have hp := List.of_mem_filter hin
    unfold oldPred at hp
    rw [hparse] at hp
    simp at hp
  · rw [get_largest_files_from, (List.perm_insertionSort _ _).mem_iff]
    exact hmem

/-- Witness for `unparseable_timestamp_excluded_from_windows`: the
timestampless file `exU` and the garbled-timestamp file `exV`. -/
theorem unparseable_timestamp_witness :
    exU ∉ get_recent_large_files_from exCut30 [exU, exV, exA] ∧
    exV ∉ get_old_large_files_from exCut180 [exU, exV, exA] ∧
    exU ∈ get_largest_files_from [exU, exV, exA] := by
  have h1 := unparseable_timestamp_excluded_from_windows [exU, exV, exA]
    exU exCut30 exCut180 (by decide) (Or.inl (by decide))
  have h2 := unparseable_timestamp_excluded_from_windows [exU, exV, exA]
    exV exCut30 exCut180 (by decide) (Or.inr (by decide))
  exact ⟨h1.1, h2.2.1, h1.2.2⟩

/-! ### C10 — the two date windows are disjoint -/

/-- C10: with the old cutoff at or before the recent cutoff (as
`now − 180 days ≤ now − 30 days` always is), no file is in both the
recent view and the old view; and a file whose parsed timestamp lies in
the closed interval between the cutoffs is in neither. -/
theorem recent_old_views_disjoint :
    ∀ (files : List FileInfo) (f : FileInfo) (c30 c180 : Nat),
      c180 ≤ c30 →
      (¬ (f ∈ get_recent_large_files_from c30 files ∧
          f ∈ get_old_large_files_from c180 files)) ∧
      (∀ dt : Nat, parseDT (f.last_modified.getD "Unknown") = some dt →
        c180 ≤ dt → dt ≤ c30 →
        f ∉ get_recent_large_files_from c30 files ∧
        f ∉ get_old_large_files_from c180 files) := by
  intro files f c30 c180 hle
  constructor
  · rintro ⟨h1, h2⟩
    rw [get_recent_large_files_from,
      (List.perm_insertionSort _ _).mem_iff] at h1
    rw [get_old_large_files_from,
      (List.perm_insertionSort _ _).mem_iff] at h2
    have p1 := List.of_mem_filter h1
    have p2 := List.of_mem_filter h2
    unfold recentPred at p1
    unfold oldPred at p2
    cases hp : parseDT (f.last_modified.getD "Unknown") with
    | none =>
      rw [hp] at p1
      simp at p1
    | some dt =>
      rw [hp] at p1 p2
      simp only [decide_eq_true_eq] at p1 p2
      omega
  · intro dt hdt hlo hhi
    constructor
    · intro hin
      rw [get_recent_large_files_from,
        (List.perm_insertionSort _ _).mem_iff] at hin
      have hp := List.of_mem_filter hin
      unfold recentPred at hp
      rw [hdt] at hp
      simp only [decide_eq_true_eq] at hp
      omega
    · intro hin
      rw [get_old_large_files_from,
        (List.perm_insertionSort _ _).mem_iff] at hin
      have hp := List.of_mem_filter hin
      unfold oldPred at hp
      rw [hdt] at hp
      simp only [decide_eq_true_eq] at hp
      omega

/-- Witness for `recent_old_views_disjoint`: `exMid` is timestamped
between the two concrete cutoffs and lands in neither view. -/
theorem recent_old_disjoint_witness :
    exMid ∉ get_recent_large_files_from exCut30 [exMid, exA] ∧
    exMid ∉ get_old_large_files_from exCut180 [exMid, exA] := by
  have h := recent_old_views_disjoint [exMid, exA] exMid exCut30 exCut180
    (by decide)
  exact h.2 (dtKey 2025 6 1 0 0 0) (by decide) (by decide) (by decide)

/-! ### C8 — no path tie-break in the ranked views -/

/-- C8 counterexample: two equal-size retained files cached in the order
`[exB, exA]` come out of `get_recent_large_files` in that same order
(stable `sort_by`, size-only comparator), although `exA`'s path is
lexicographically smaller — the claimed path-ascending tie-break does not
exist. -/
theorem no_path_tie_break_counterexample :
    get_recent_large_files_from exCut30 [exB, exA] = [exB, exA] ∧
    exA.size_bytes = exB.size_bytes ∧
    exA.full_path.toList < exB.full_path.toList := by
  refine ⟨by decide, by decide, by decide⟩

/-- C8 (amended): every ranked view sorts by size descending only.  The
output of each view is sorted under `sizeDescF` and is a permutation of
its retained input; the date-windowed views (stable `sort_by`) keep any
comparator-compatible pair — equal-size entries in particular — in cache
order.  No path comparison takes place; ordering among equal-size
entries is cache order for the windowed views and unspecified for the
unstable largest-files sort. -/
theorem ranked_views_sorted_by_size_only :
    ∀ (files : List FileInfo) (c30 c180 : Nat),
      List.Sorted sizeDescF (get_largest_files_from files) ∧
      (get_largest_files_from files).Perm files ∧
      List.Sorted sizeDescF (get_recent_large_files_from c30 files) ∧
      (get_recent_large_files_from c30 files).Perm
        (files.filter (recentPred c30)) ∧
      List.Sorted sizeDescF (get_old_large_files_from c180 files) ∧
      (get_old_large_files_from c180 files).Perm
        (files.filter (oldPred c180)) ∧
      (∀ a b : FileInfo, sizeDescF a b →
        [a, b].Sublist (files.filter (recentPred c30)) →
        [a, b].Sublist (get_recent_large_files_from c30 files)) ∧
      (∀ a b : FileInfo, sizeDescF a b →
        [a, b].Sublist (files.filter (oldPred c180)) →
        [a, b].Sublist (get_old_large_files_from c180 files)) := by
  intro files c30 c180
  refine ⟨List.sorted_insertionSort sizeDescF files,
    List.perm_insertionSort sizeDescF files,
    List.sorted_insertionSort sizeDescF _,
    List.perm_insertionSort sizeDescF _,
    List.sorted_insertionSort sizeDescF _,
    List.perm_insertionSort sizeDescF _,
    fun a b hr hsub => List.pair_sublist_insertionSort hr hsub,
    fun a b hr hsub => List.pair_sublist_insertionSort hr hsub⟩

/-- Witness for `ranked_views_sorted_by_size_only`: the stability clause
applied to the equal-size pair `[exB, exA]`. -/
theorem ranked_views_sorted_witness :
    [exB, exA].Sublist (get_recent_large_files_from exCut30 [exB, exA]) := by
  apply (ranked_views_sorted_by_size_only [exB, exA] exCut30 0).2.2.2.2.2.2.1
    exB exA (by decide)
  have h : List.filter (recentPred exCut30) [exB, exA] = [exB, exA] := by
    decide
  rw [h]

/-! ### C6 — the extension merge is a commutative monoid fold -/

/-- `mergeStats` with the empty map on the left is the identity. -/
theorem mergeStats_empty_left (m : String → FileTypeStats) :
    mergeStats extStatsEmpty m = m := by
  funext e
  simp [mergeStats, extStatsEmpty]

/-- One fold step equals merging in the singleton map of the file. -/
theorem addFileToStats_as_merge (acc : String → FileTypeStats)
    (f : FileInfo) :
    addFileToStats acc f = mergeStats acc (addFileToStats extStatsEmpty f) := by
  funext e
  by_cases h : e = extensionKey f.full_path <;>
    simp [addFileToStats, mergeStats, extStatsEmpty, h]

/-- `mergeStats` is commutative. -/
theorem mergeStats_comm (m1 m2 : String → FileTypeStats) :
    mergeStats m1 m2 = mergeStats m2 m1 := by
  funext e
  simp [mergeStats, Nat.add_comm]

/-- `mergeStats` is associative. -/
theorem mergeStats_assoc (m1 m2 m3 : String → FileTypeStats) :
    mergeStats (mergeStats m1 m2) m3 = mergeStats m1 (mergeStats m2 m3) := by
  funext e
  simp [mergeStats, Nat.add_assoc]

/-- A worker's fold from any starting accumulator factors through the
fold from the empty map. -/
theorem foldl_addFileToStats (files : List FileInfo)
    (acc : String → FileTypeStats) :
    files.foldl addFileToStats acc = mergeStats acc (foldStats files) := by
  induction files generalizing acc with
  | nil =>
    funext e
    simp [foldStats, mergeStats, extStatsEmpty]
  | cons f l ih =>
    show (l.foldl addFileToStats (addFileToStats acc f)) = _
    rw [ih (addFileToStats acc f), addFileToStats_as_merge acc f,
      mergeStats_assoc]
    have : foldStats (f :: l) =
        mergeStats (addFileToStats extStatsEmpty f) (foldStats l) := by
      show (l.foldl addFileToStats (addFileToStats extStatsEmpty f)) = _
      rw [ih (addFileToStats extStatsEmpty f)]
    rw [this]

/-- Folding one more file on the front merges in its singleton map. -/
theorem foldStats_cons (f : FileInfo) (l : List FileInfo) :
    foldStats (f :: l) =
      mergeStats (addFileToStats extStatsEmpty f) (foldStats l) := by
  show (l.foldl addFileToStats (addFileToStats extStatsEmpty f)) = _
  rw [foldl_addFileToStats l (addFileToStats extStatsEmpty f)]

/-- The per-extension totals do not depend on the order the file list is
traversed in. -/
theorem foldStats_perm {l1 l2 : List FileInfo} (h : l1.Perm l2) :
    foldStats l1 = foldStats l2 := by
  induction h with
  | nil => rfl
  | cons x _ ih => rw [foldStats_cons, foldStats_cons, ih]
  | swap x y l =>
    rw [foldStats_cons, foldStats_cons, foldStats_cons, foldStats_cons,
      ← mergeStats_assoc, ← mergeStats_assoc,
      mergeStats_comm (addFileToStats extStatsEmpty y)
        (addFileToStats extStatsEmpty x)]
  | trans _ _ ih1 ih2 => rw [ih1, ih2]

/-- Splitting the file list anywhere splits the fold into a merge. -/
theorem foldStats_append (l1 l2 : List FileInfo) :
    foldStats (l1 ++ l2) = mergeStats (foldStats l1) (foldStats l2) := by
  show ((l1 ++ l2).foldl addFileToStats extStatsEmpty) = _
  rw [List.foldl_append]
  exact foldl_addFileToStats l2 (foldStats l1)

/-- Reducing a list of partial maps from any starting map factors through
the reduction from the empty map. -/
theorem foldl_mergeStats (ms : List (String → FileTypeStats))
    (a : String → FileTypeStats) :
    ms.foldl mergeStats a = mergeStats a (ms.foldl mergeStats extStatsEmpty) := by
  induction ms generalizing a with
  | nil =>
    funext e
    simp [mergeStats, extStatsEmpty]
  | cons m ms ih =>
    show (ms.foldl mergeStats (mergeStats a m)) =
      mergeStats a (ms.foldl mergeStats (mergeStats extStatsEmpty m))
    rw [ih (mergeStats a m), ih (mergeStats extStatsEmpty m),
      mergeStats_empty_left, mergeStats_assoc]

/-- Reducing every part's partial map equals folding the concatenation. -/
theorem foldStats_parts (parts : List (List FileInfo)) :
    (parts.map foldStats).foldl mergeStats extStatsEmpty =
      foldStats parts.flatten := by
  induction parts with
  | nil => rfl
  | cons p ps ih =>
    show ((ps.map foldStats).foldl mergeStats
      (mergeStats extStatsEmpty (foldStats p))) = _
    rw [foldl_mergeStats _ (mergeStats extStatsEmpty (foldStats p)), ih,
      mergeStats_empty_left, List.flatten_cons, foldStats_append]

/-- C6: the per-extension partial-map merge of
`get_file_type_distribution` is commutative and associative, and the
fold-then-reduce scheme is independent of worker partitioning and of
traversal order: reducing the partial maps of any parts whose
concatenation is any permutation of the file list yields exactly the
per-extension size and count totals of the sequential fold. -/
theorem extension_distribution_partition_invariant :
    (∀ m1 m2 : String → FileTypeStats, mergeStats m1 m2 = mergeStats m2 m1) ∧
    (∀ m1 m2 m3 : String → FileTypeStats,
      mergeStats (mergeStats m1 m2) m3 = mergeStats m1 (mergeStats m2 m3)) ∧
    (∀ (files : List FileInfo) (parts : List (List FileInfo)),
      parts.flatten.Perm files →
      (parts.map foldStats).foldl mergeStats extStatsEmpty =
        foldStats files) := by
  refine ⟨mergeStats_comm, mergeStats_assoc, ?_⟩
  intro files parts hperm
  rw [foldStats_parts parts, foldStats_perm hperm]

/-- Witness for `extension_distribution_partition_invariant`: two
one-file parts, concatenated opposite to the traversal order. -/
theorem extension_distribution_witness :
    ([[exB], [exA]].map foldStats).foldl mergeStats extStatsEmpty =
      foldStats [exA, exB] :=
  extension_distribution_partition_invariant.2.2 [exA, exB] [[exB], [exA]]
    (List.Perm.swap exA exB [])

/-! ### C7 — a directory's aggregate is the prefix-sum over the volume -/

mutual
/-- Every file met when walking from path `p` has `p` as a path prefix. -/
theorem walkFrom_under (p : List String) (t : FsNode) :
    ∀ e ∈ walkFrom p t, p <+: e.path := by
  cases t with
  | file nm s m a =>
    intro e he
    simp only [walkFrom, List.mem_singleton] at he
    subst he
    exact List.prefix_rfl
  | dir nm cs =>
    intro e he
    exact walkForest_under p cs e he
/-- Every file met beneath a sibling list of the directory at path `p`
has `p` as a path prefix. -/
theorem walkForest_under (p : List String) (cs : FsForest) :
    ∀ e ∈ walkForest p cs, p <+: e.path := by
  cases cs with
  | nil =>
    intro e he
    simp [walkForest] at he
  | cons c cs =>
    intro e he
    simp only [walkForest, List.mem_append] at he
    rcases he with h | h
    · exact (List.prefix_append p [c.name]).trans
        (walkFrom_under (p ++ [c.name]) c e h)
    · exact walkForest_under p cs e h
end

/-- Two one-step extensions of the same path that prefix the same list
extend it by the same component. -/
theorem prefix_head_eq {p l : List String} {a b : String} {r : List String}
    (h1 : (p ++ [a]) <+: l) (h2 : (p ++ b :: r) <+: l) : a = b := by
  have h2' : (p ++ [b]) <+: l := by
    have : (p ++ [b]) <+: (p ++ b :: r) := by
      rw [show p ++ b :: r = (p ++ [b]) ++ r by simp]
      exact List.prefix_append _ _
    exact this.trans h2
  have hlen : (p ++ [a]).length = (p ++ [b]).length := by simp
  have heq : p ++ [a] = p ++ [b] := by
    rcases List.prefix_or_prefix_of_prefix h1 h2' with h | h
    · exact h.eq_of_length hlen
    · exact (h.eq_of_length hlen.symm).symm
  have := List.append_cancel_left heq
  simpa using this

/-- Files under a sibling subtree named differently from `nm` never
match a path that descends through `nm`. -/
theorem walkFrom_filter_other (p : List String) (nm : String)
    (rest : List String) (c : FsNode) (hne : ¬ c.name = nm) :
    (walkFrom (p ++ [c.name]) c).filter
      (fun e => decide ((p ++ nm :: rest) <+: e.path)) = [] := by
  rw [List.filter_eq_nil_iff]
  intro e he hpref
  have h1 := walkFrom_under (p ++ [c.name]) c e he
  rw [decide_eq_true_eq] at hpref
  exact hne (prefix_head_eq h1 hpref)

/-- If no child of the directory at `p` is named `nm`, no file beneath it
matches a path that descends through `nm`. -/
theorem walkForest_filter_absent (p : List String) (nm : String)
    (rest : List String) (cs : FsForest) (h : findChild nm cs = none) :
    (walkForest p cs).filter
      (fun e => decide ((p ++ nm :: rest) <+: e.path)) = [] := by
  cases cs with
  | nil => rfl
  | cons c cs =>
    unfold findChild at h
    by_cases hc : c.name = nm
    · rw [if_pos hc] at h
      exact absurd h (by simp)
    · rw [if_neg hc] at h
      show (List.filter _ (walkFrom (p ++ [c.name]) c ++ walkForest p cs)) = _
      rw [List.filter_append, walkFrom_filter_other p nm rest c hc,
        walkForest_filter_absent p nm rest cs h, List.append_nil]

/-- With distinct sibling names, filtering a directory's walk by a path
that descends through child `nm` keeps exactly the matching files of
that child's subtree. -/
theorem walkForest_filter_found (p : List String) (nm : String)
    (rest : List String) (cs : FsForest) (c : FsNode)
    (hwf : forestWF cs = true) (h : findChild nm cs = some c) :
    (walkForest p cs).filter
      (fun e => decide ((p ++ nm :: rest) <+: e.path)) =
    (walkFrom (p ++ [nm]) c).filter
      (fun e => decide ((p ++ nm :: rest) <+: e.path)) := by
  cases cs with
  | nil => exact absurd h (by simp [findChild])
  | cons c0 cs =>
    unfold forestWF at hwf
    simp only [Bool.and_eq_true, Option.isNone_iff_eq_none] at hwf
    unfold findChild at h
    by_cases hc : c0.name = nm
    · rw [if_pos hc] at h
      have hc0 : c0 = c := by
        simpa using h
      subst hc0
      show (List.filter _ (walkFrom (p ++ [c0.name]) c0 ++ walkForest p cs)) = _
      rw [List.filter_append, hc,
        walkForest_filter_absent p nm rest cs (hc ▸ hwf.2),
        List.append_nil]
    · rw [if_neg hc] at h
      show (List.filter _ (walkFrom (p ++ [c0.name]) c0 ++ walkForest p cs)) = _
      rw [List.filter_append, walkFrom_filter_other p nm rest c0 hc,
        walkForest_filter_found p nm rest cs c hwf.1.2 h, List.nil_append]

/-- A found child of a well-formed sibling list is well-formed. -/
theorem findChild_wf (nm : String) (cs : FsForest) (c : FsNode)
    (hwf : forestWF cs = true) (h : findChild nm cs = some c) :
    nodeWF c = true := by
  cases cs with
  | nil => exact absurd h (by simp [findChild])
  | cons c0 cs =>
    unfold forestWF at hwf
    simp only [Bool.and_eq_true] at hwf
    unfold findChild at h
    by_cases hc : c0.name = nm
    · rw [if_pos hc] at h
      have : c0 = c := by simpa using h
      exact this ▸ hwf.1.1
    · rw [if_neg hc] at h
      exact findChild_wf nm cs c hwf.1.2 h

/-- Walking the subtree at relative path `q` yields exactly the files of
the full walk whose paths extend `p ++ q` — for a well-formed tree the
subtree walk and the path-prefix filter agree. -/
theorem walk_subtree_eq_filter (q : List String) (t n : FsNode)
    (p : List String) (hwf : nodeWF t = true)
    (hsub : subtreeAt t q = some n) :
    walkFrom (p ++ q) n =
      (walkFrom p t).filter (fun e => decide ((p ++ q) <+: e.path)) := by
  induction q generalizing t p with
  | nil =>
    have ht : t = n := by simpa [subtreeAt] using hsub
    subst ht
    rw [List.append_nil]
    symm
    rw [List.filter_eq_self]
    intro e he
    rw [decide_eq_true_eq]
    exact walkFrom_under p t e he
  | cons nm rest ih =>
    cases t with
    | file nm0 s m a => exact absurd hsub (by simp [subtreeAt])
    | dir nm0 cs =>
      unfold subtreeAt at hsub
      rw [Option.bind_eq_some] at hsub
      rcases hsub with ⟨c, hfind, hsubc⟩
      have hwfc : nodeWF c = true := findChild_wf nm cs c hwf hfind
      show walkFrom (p ++ nm :: rest) n =
        (walkForest p cs).filter (fun e => decide ((p ++ nm :: rest) <+: e.path))
      rw [walkForest_filter_found p nm rest cs c hwf hfind]
      have hsplit : p ++ nm :: rest = (p ++ [nm]) ++ rest := by simp
      rw [hsplit]
      exact ih c (p ++ [nm]) hwfc hsubc

/-- C7: for every well-formed volume tree and every directory `D` in it
(the subtree `n` at relative path `q`), `calculate_folder_size` returns
exactly the sum of the sizes of every scanned file whose path is
prefixed by `D`'s path — unbounded depth, hidden names included — and a
file count equal to the number of such files. -/
theorem folder_size_is_prefix_sum :
    ∀ (root n : FsNode) (q : List String),
      nodeWF root = true → subtreeAt root q = some n →
      calculate_folder_size (root.name :: q) n =
        ⟨renderPath (root.name :: q),
         (((fileScanOf root).filter
            (fun e => decide ((root.name :: q) <+: e.path))).map
            (fun e => e.size)).sum,
         ((fileScanOf root).filter
            (fun e => decide ((root.name :: q) <+: e.path))).length⟩ := by
  intro root n q hwf hsub
  have h := walk_subtree_eq_filter q root n [root.name] hwf hsub
  unfold calculate_folder_size fileScanOf
  rw [show root.name :: q = [root.name] ++ q by rfl, h]

/-- Witness for `folder_size_is_prefix_sum`: directory `d` of `exT3`,
whose 12 bytes across 2 files include the 7 bytes under its hidden
subdirectory `.h`. -/
theorem folder_size_witness :
    calculate_folder_size (exT3.name :: ["d"]) exT3d =
      ⟨renderPath (exT3.name :: ["d"]),
       (((fileScanOf exT3).filter
          (fun e => decide ((exT3.name :: ["d"]) <+: e.path))).map
          (fun e => e.size)).sum,
       ((fileScanOf exT3).filter
          (fun e => decide ((exT3.name :: ["d"]) <+: e.path))).length⟩ :=
  folder_size_is_prefix_sum exT3 exT3d ["d"] (by decide) (by decide)

/-! ### C1 and C5 — the largest-folders view that actually prints

`print_largest_folders` reads `folder_cache`, which
`collect_and_cache_files` fills with every depth-1..3 directory in
traversal order — no hidden-name filter, no size filter, no sort.  The
function `get_largest_folders`, which does filter and sort exactly as
spec and comments describe, is never called.  The theorems below
evaluate both at concrete volumes; the depth bound, the one part the
printed view does honour, is proved in general first. -/

mutual
/-- Every directory entry the shallow enumeration emits from a node at
depth `d ≤ 3` with path length `d + 1` has a path of length 2..4, i.e.
sits at depth 1..3 relative to the root. -/
theorem dirsFrom_depth (p : List String) (d : Nat) (t : FsNode)
    (hp : p.length = d + 1) (hd : d ≤ 3) :
    ∀ e ∈ dirsFrom p d t, 2 ≤ e.1.length ∧ e.1.length ≤ 4 := by
  cases t with
  | file nm s m a =>
    intro e he
    simp [dirsFrom] at he
  | dir nm cs =>
    intro e he
    unfold dirsFrom at he
    rw [List.mem_append] at he
    rcases he with h | h
    · by_cases h1 : 1 ≤ d ∧ d ≤ 3
      · rw [if_pos h1, List.mem_singleton] at h
        subst h
        simp only
        omega
      · rw [if_neg h1] at h
        simp at h
    · by_cases h2 : d < 3
      · rw [if_pos h2] at h
        exact dirsForest_depth p d cs hp h2 e h
      · rw [if_neg h2] at h
        simp at h
/-- Depth bound for the entries contributed by the children of a node at
depth `d < 3` with path length `d + 1`. -/
theorem dirsForest_depth (p : List String) (d : Nat) (cs : FsForest)
    (hp : p.length = d + 1) (hd : d < 3) :
    ∀ e ∈ dirsForest p d cs, 2 ≤ e.1.length ∧ e.1.length ≤ 4 := by
  cases cs with
  | nil =>
    intro e he
    simp [dirsForest] at he
  | cons c cs =>
    intro e he
    unfold dirsForest at he
    rw [List.mem_append] at he
    rcases he with h | h
    · exact dirsFrom_depth (p ++ [c.name]) (d + 1) c (by simp [hp]) hd e h
    · exact dirsForest_depth p d cs hp hd e h
end

/-- Every directory the scan caches (and hence every directory the
printed largest-folders view can show) is at depth 1–3 relative to the
volume root: its path has the root component plus one to three more. -/
theorem folderScan_depth_bounds (root : FsNode) :
    ∀ e ∈ dirsFrom [root.name] 0 root,
      2 ≤ e.1.length ∧ e.1.length ≤ 4 :=
  dirsFrom_depth [root.name] 0 root (by simp) (by omega)

/-- C1 (code-bug evidence): on volume `exT1` the printed largest-folders
view lists the 50 MB directory `C:/small` — whose aggregate is below the
0.1 GB threshold — and lists it before the 2 GB `C:/big`: the view is
neither filtered by the strict `> 0.1 GB` comparator nor sorted
descending, because it prints the raw folder cache; the never-invoked
`get_largest_folders` on the same volume returns exactly the filtered,
descending list the claim describes. -/
theorem largest_folders_view_unfiltered_unsorted :
    (print_largest_folders [] (folderScanOf exT1) emptyAnalyzer "C:/").1 =
      [⟨"C:/small", 52428800, 1⟩, ⟨"C:/big", 2147483648, 1⟩] ∧
    folderAboveMin 52428800 = false ∧
    get_largest_folders exT1 = [⟨"C:/big", 2147483648, 1⟩] := by
  refine ⟨by decide, by decide, by decide⟩

/-- C5 (code-bug evidence): on volume `exT2` the hidden depth-1
directory `.hidden` is cached by the scan and printed by the
largest-folders view, although its base name starts with `.`; only the
never-invoked `get_largest_folders` excludes it.  The other halves of
the claim hold: the listed entry is at depth 1 (path `["C:", ".hidden"]`),
and on `exT3` the hidden subdirectory's 7 bytes still count towards its
listed ancestor `C:/d`'s aggregate of 12 bytes across 2 files. -/
theorem hidden_folder_is_listed :
    (print_largest_folders [] (folderScanOf exT2) emptyAnalyzer "C:/").1 =
      [⟨"C:/.hidden", 2147483648, 1⟩] ∧
    hiddenName ".hidden" = true ∧
    get_largest_folders exT2 = [] ∧
    (dirsFrom [exT2.name] 0 exT2).map (fun e => e.1) = [["C:", ".hidden"]] ∧
    calculate_folder_size ["C:", "d"] exT3d = ⟨"C:/d", 12, 2⟩ := by
  refine ⟨by decide, by decide, by decide, by decide, by decide⟩

end RustyAnalyser
